import Mathlib

/-!
Verification of the `action-crosspost` repository (scripts/get_urls.py and
scripts/post_urls.py) against its natural-language specification.

The two Python scripts are shallowly embedded below.  Pure string and list
manipulations are translated to Lean functions over `String` / `List Char`;
network and process effects of `post_urls.py` are modelled by an explicit
`World` oracle together with an effect trace.  Python string ordering is
code-point lexicographic, embedded as `lexLt` on `List Char`.
-/

/- ## String helpers (code-point semantics, matching Python's `str`) -/

/-- Code-point lexicographic strict order on character lists:
Python's `<` on `str`. -/
def lexLt : List Char → List Char → Bool
  | [], [] => false
  | [], _ :: _ => true
  | _ :: _, [] => false
  | a :: as, b :: bs => if a < b then true else if b < a then false else lexLt as bs

/-- Python's `<=` on `str` (total order, complement of the reversed strict order). -/
def strLe (a b : String) : Bool := !(lexLt b.toList a.toList)

/-- Python's `<` on `str`. -/
def strLt (a b : String) : Bool := lexLt a.toList b.toList

/-- Contiguous-substring test: Python's `p in s` on strings. -/
def isInfixB (p : List Char) : List Char → Bool
  | [] => p.isPrefixOf []
  | c :: s' => p.isPrefixOf (c :: s') || isInfixB p s'

/-- Python's `str.splitlines`, restricted to the newline terminator:
chunks terminated by a newline, plus a final unterminated chunk only
when it is nonempty. -/
def splitlinesAux (acc : List Char) : List Char → List String
  | [] => if acc.isEmpty then [] else [String.mk acc.reverse]
  | c :: rest =>
      if c = '\n' then String.mk acc.reverse :: splitlinesAux [] rest
      else splitlinesAux (c :: acc) rest

/-- Python's `str.splitlines` on a string. -/
def splitlines (s : String) : List String := splitlinesAux [] s.toList

/-- Python's `str.strip()` on the ASCII whitespace that occurs in this
repository's inputs. -/
def stripStr (s : String) : String :=
  String.mk (((s.toList.dropWhile Char.isWhitespace).reverse.dropWhile
    Char.isWhitespace).reverse)

/-- ASCII lowering of one character, as used by the scripts on ASCII
configuration values and relation tokens (Python `str.lower`). -/
def lowerStr (s : String) : String := String.mk (s.toList.map Char.toLower)

/-- Python's `str.startswith`. -/
def startsWithB (s p : String) : Bool := p.toList.isPrefixOf s.toList

/-- `sep.join(xs)` from Python. -/
def joinSep (sep : String) : List String → String
  | [] => ""
  | [x] => x
  | x :: y :: xs => x ++ sep ++ joinSep sep (y :: xs)

/- ## A stable insertion sort (structural, kernel-computable) -/

/-- Insert `x` into `l` before the first element `y` with `r x y`. -/
def insertBy (r : α → α → Bool) (x : α) : List α → List α
  | [] => [x]
  | y :: ys => if r x y then x :: y :: ys else y :: insertBy r x ys

/-- Insertion sort by the boolean relation `r`; models Python's `sorted`
(and `list.sort`) on the lists this repository sorts. -/
def sortBy (r : α → α → Bool) (l : List α) : List α := l.foldr (insertBy r) []

/-- Python's `sorted` on string lists (ascending code-point order). -/
def sortStrings (l : List String) : List String := sortBy strLe l

theorem insertBy_perm (r : α → α → Bool) (x : α) (l : List α) :
    List.Perm (insertBy r x l) (x :: l) := by
  induction l with
  | nil => simp [insertBy]
  | cons y ys ih =>
      simp only [insertBy]
      by_cases h : r x y = true
      · simp [h]
      · simp only [h, if_false]
        exact List.Perm.trans (ih.cons y) (List.Perm.swap x y ys)

theorem sortBy_perm (r : α → α → Bool) (l : List α) : List.Perm (sortBy r l) l := by
  induction l with
  | nil => simp [sortBy]
  | cons x xs ih =>
      have h1 : List.Perm (insertBy r x (sortBy r xs)) (x :: sortBy r xs) :=
        insertBy_perm r x (sortBy r xs)
      exact List.Perm.trans h1 (ih.cons x)

theorem mem_sortBy {r : α → α → Bool} {l : List α} {a : α} :
    a ∈ sortBy r l ↔ a ∈ l := (sortBy_perm r l).mem_iff

theorem sortBy_nodup {r : α → α → Bool} {l : List α} (h : l.Nodup) :
    (sortBy r l).Nodup := ((sortBy_perm r l).nodup_iff).mpr h

theorem sortBy_count [DecidableEq α] (r : α → α → Bool) (l : List α) (a : α) :
    (sortBy r l).count a = l.count a := (sortBy_perm r l).count_eq a

theorem mem_insertBy {r : α → α → Bool} {x a : α} {l : List α} :
    a ∈ insertBy r x l ↔ a = x ∨ a ∈ l := by
  rw [(insertBy_perm r x l).mem_iff]
  simp

theorem pairwise_insertBy {r : α → α → Bool}
    (htot : ∀ a b, r a b = true ∨ r b a = true)
    (htrans : ∀ a b c, r a b = true → r b c = true → r a c = true)
    {x : α} {l : List α} (h : l.Pairwise (fun a b => r a b = true)) :
    (insertBy r x l).Pairwise (fun a b => r a b = true) := by
  induction l with
  | nil => simp [insertBy]
  | cons y ys ih =>
      rcases List.pairwise_cons.mp h with ⟨hy, hys⟩
      simp only [insertBy]
      by_cases hxy : r x y = true
      · simp only [hxy, if_true]
        refine List.pairwise_cons.mpr ⟨?_, h⟩
        intro b hb
        rcases List.mem_cons.mp hb with hb' | hb'
        · exact hb' ▸ hxy
        · exact htrans x y b hxy (hy b hb')
      · simp only [hxy, if_false]
        have hyx : r y x = true := by
          rcases htot x y with h1 | h1
          · exact absurd h1 hxy
          · exact h1
        refine List.pairwise_cons.mpr ⟨?_, ih hys⟩
        intro b hb
        rcases mem_insertBy.mp hb with hb' | hb'
        · exact hb' ▸ hyx
        · exact hy b hb'

theorem pairwise_sortBy {r : α → α → Bool}
    (htot : ∀ a b, r a b = true ∨ r b a = true)
    (htrans : ∀ a b c, r a b = true → r b c = true → r a c = true)
    (l : List α) : (sortBy r l).Pairwise (fun a b => r a b = true) := by
  induction l with
  | nil => simp [sortBy]
  | cons x xs ih => exact pairwise_insertBy htot htrans ih

/- ### the string order is total and transitive -/

theorem lexLt_irrefl (l : List Char) : lexLt l l = false := by
  induction l with
  | nil => rfl
  | cons c cs ih => simp [lexLt, ih]

theorem lexLt_asymm : ∀ a b : List Char, lexLt a b = true → lexLt b a = false
  | [], [], h => by simp [lexLt] at h
  | [], _ :: _, _ => rfl
  | _ :: _, [], h => by simp [lexLt] at h
  | a :: as, b :: bs, h => by
      simp only [lexLt] at h ⊢
      rcases lt_trichotomy a b with hab | hab | hab
      · simp [lt_asymm hab, hab]
      · subst hab
        simp only [lt_irrefl, if_false] at h ⊢
        exact lexLt_asymm as bs h
      · simp [lt_asymm hab, hab] at h

theorem lexLt_trans : ∀ a b c : List Char,
    lexLt a b = true → lexLt b c = true → lexLt a c = true
  | [], _, _ :: _, _, _ => rfl
  | [], _ :: _, [], _, h2 => by simp [lexLt] at h2
  | [], [], _, h1, _ => by simp [lexLt] at h1
  | _ :: _, [], _, h1, _ => by simp [lexLt] at h1
  | _ :: _, _ :: _, [], _, h2 => by simp [lexLt] at h2
  | a :: as, b :: bs, c :: cs, h1, h2 => by
      simp only [lexLt] at h1 h2 ⊢
      rcases lt_trichotomy a b with hab | hab | hab
      · rcases lt_trichotomy b c with hbc | hbc | hbc
        · simp [lt_trans hab hbc]
        · subst hbc
          simp [hab]
        · simp [lt_asymm hbc, hbc] at h2
      · subst hab
        rcases lt_trichotomy a c with hac | hac | hac
        · simp [hac]
        · subst hac
          simp only [lt_irrefl, if_false] at h1 h2 ⊢
          exact lexLt_trans as bs cs h1 h2
        · simp [lt_asymm hac, hac] at h2
      · simp [lt_asymm hab, hab] at h1

theorem lexLt_connex : ∀ a b : List Char,
    lexLt a b = false → lexLt b a = false → a = b
  | [], [], _, _ => rfl
  | [], _ :: _, h1, _ => by simp [lexLt] at h1
  | _ :: _, [], _, h2 => by simp [lexLt] at h2
  | a :: as, b :: bs, h1, h2 => by
      simp only [lexLt] at h1 h2
      rcases lt_trichotomy a b with hab | hab | hab
      · simp [hab] at h1
      · subst hab
        simp only [lt_irrefl, if_false] at h1 h2
        rw [lexLt_connex as bs h1 h2]
      · simp [hab] at h2

theorem strLe_total (a b : String) : strLe a b = true ∨ strLe b a = true := by
  unfold strLe
  by_cases h : lexLt b.toList a.toList = true
  · right
    rw [Bool.not_eq_true']
    exact lexLt_asymm _ _ h
  · left
    rw [Bool.not_eq_true']
    simpa using h

theorem strLe_trans (a b c : String) :
    strLe a b = true → strLe b c = true → strLe a c = true := by
  unfold strLe
  rw [Bool.not_eq_true', Bool.not_eq_true', Bool.not_eq_true']
  intro h1 h2
  by_contra hcon
  have h : lexLt c.toList a.toList = true := by
    cases hv : lexLt c.toList a.toList
    · exact absurd hv hcon
    · rfl
  by_cases hbc : lexLt b.toList c.toList = true
  · exact absurd (lexLt_trans _ _ _ hbc h)
      (fun hc => by rw [hc] at h1; exact Bool.noConfusion h1)
  · have hbc' : lexLt b.toList c.toList = false := by
      cases hv : lexLt b.toList c.toList
      · rfl
      · exact absurd hv hbc
    have heq : c.toList = b.toList := lexLt_connex _ _ h2 hbc'
    rw [heq] at h
    rw [h] at h1
    exact Bool.noConfusion h1

/- ## Timestamps (Python `datetime`, UTC-normalized as the spec's invariant) -/

/-- A Python `datetime` value, UTC-normalized (the scripts compare only
UTC-aware datetimes).  Comparison is field-lexicographic, as in Python. -/
structure PyDateTime where
  year : Nat
  month : Nat
  day : Nat
  hour : Nat
  minute : Nat
  second : Nat
  microsecond : Nat
deriving DecidableEq, Repr

/-- Python `datetime` strict comparison `a < b` (lexicographic on the
seven fields, both values UTC). -/
def PyDateTime.ltB (a b : PyDateTime) : Bool :=
  if a.year ≠ b.year then a.year < b.year
  else if a.month ≠ b.month then a.month < b.month
  else if a.day ≠ b.day then a.day < b.day
  else if a.hour ≠ b.hour then a.hour < b.hour
  else if a.minute ≠ b.minute then a.minute < b.minute
  else if a.second ≠ b.second then a.second < b.second
  else a.microsecond < b.microsecond

/-- `t.date()` in Python: the calendar-date part. -/
def PyDateTime.dateTriple (t : PyDateTime) : Nat × Nat × Nat := (t.year, t.month, t.day)

/-- Python `date` strict comparison `a.date() < b.date()`. -/
def dateLtB (a b : PyDateTime) : Bool :=
  if a.year ≠ b.year then a.year < b.year
  else if a.month ≠ b.month then a.month < b.month
  else a.day < b.day

/- ## `fnmatch.fnmatch` glob matching (stdlib collaborator of get_urls.py) -/

/-- Scan a character-class body for its closing `]`; returns the class
content and the remainder of the pattern. -/
def scanClose (acc : List Char) : List Char → Option (List Char × List Char)
  | [] => none
  | c :: rest => if c = ']' then some (acc.reverse, rest) else scanClose (c :: acc) rest

/-- Parse a glob character class after `[`: optional `!` negation, a `]`
in first content position is literal, unterminated classes fail (the `[`
is then a literal character, as in `fnmatch.translate`). -/
def parseCls (l : List Char) : Option (Bool × List Char × List Char) :=
  match l with
  | '!' :: ']' :: rest2 => (scanClose [']'] rest2).map (fun pr => (true, pr.1, pr.2))
  | '!' :: rest => (scanClose [] rest).map (fun pr => (true, pr.1, pr.2))
  | ']' :: rest2 => (scanClose [']'] rest2).map (fun pr => (false, pr.1, pr.2))
  | rest => (scanClose [] rest).map (fun pr => (false, pr.1, pr.2))

/-- Interpret class content as literal characters and `x-y` ranges
(an empty range matches nothing, as in `fnmatch.translate`). -/
def classItems : List Char → List (Char × Char)
  | a :: '-' :: b :: rest => (a, b) :: classItems rest
  | a :: rest => (a, a) :: classItems rest
  | [] => []

/-- Character-class membership test, with negation. -/
def matchCls (c : Char) (neg : Bool) (items : List (Char × Char)) : Bool :=
  let inSet := items.any (fun pr => decide (pr.1 ≤ c) && decide (c ≤ pr.2))
  if neg then !inSet else inSet

/-- Fuel-driven worker for glob matching.  Every recursive call consumes
at least one pattern or subject character, so `p.length + s.length + 1`
fuel always suffices; the fuel only makes the recursion structural (and
hence kernel-computable). -/
def globMatchF : Nat → List Char → List Char → Bool
  | 0, _, _ => false
  | _ + 1, [], [] => true
  | _ + 1, [], _ :: _ => false
  | fuel + 1, '*' :: ps, [] => globMatchF fuel ps []
  | fuel + 1, '*' :: ps, c :: s' =>
      globMatchF fuel ps (c :: s') || globMatchF fuel ('*' :: ps) s'
  | _ + 1, _ :: _, [] => false
  | fuel + 1, '?' :: ps, _ :: s' => globMatchF fuel ps s'
  | fuel + 1, '[' :: ps, c :: s' =>
      (match parseCls ps with
       | some (neg, content, rest) =>
           matchCls c neg (classItems content) && globMatchF fuel rest s'
       | none => (c == '[') && globMatchF fuel ps s')
  | fuel + 1, pc :: ps, c :: s' => (pc == c) && globMatchF fuel ps s'

/-- `fnmatch.fnmatch(s, p)` on POSIX (where `normcase` is the identity):
`*` matches any run, `?` any single character, `[...]`/`[!...]` are
character classes, everything else is literal. -/
def globMatch (p : List Char) (s : List Char) : Bool :=
  globMatchF (p.length + s.length + 1) p s

/- ## get_urls.py -/

namespace GetUrls

/-- One leaf entry of the fetched sitemap tree (`tree.all_pages()`):
its URL, its optional `last_modified` field, and the optional
`news_story.publish_date` (absent when there is no news story or the
story has no publish date). -/
structure SitemapPage where
  url : String
  last_modified : Option PyDateTime
  news_publish_date : Option PyDateTime
deriving DecidableEq, Repr

/-- The `lastmod` selection of `extract_urls`: `last_modified` when
present, else the news-story publish date, else no freshness signal. -/
def lastmodOf (page : SitemapPage) : Option PyDateTime :=
  match page.last_modified with
  | some t => some t
  | none => page.news_publish_date

/-- The date-only (midnight) test of `extract_urls`: all time-of-day
components are zero. -/
def isDateOnly (t : PyDateTime) : Bool :=
  t.hour = 0 && t.minute = 0 && t.second = 0 && t.microsecond = 0

/-- The time-window test of `extract_urls`: date-granularity comparison
for a midnight value, full-instant comparison otherwise. -/
def isNewerThan (lastmod since_ago : PyDateTime) : Bool :=
  if isDateOnly lastmod then dateLtB since_ago lastmod
  else PyDateTime.ltB since_ago lastmod

/-- The body of the `for page in tree.all_pages()` loop of
`extract_urls`: the retained `(lastmod, url)` pair, if any. -/
def freshPair (since_ago : PyDateTime) (page : SitemapPage) : Option (PyDateTime × String) :=
  match lastmodOf page with
  | none => none
  | some lastmod => if isNewerThan lastmod since_ago then some (lastmod, page.url) else none

/-- `extract_urls`: keep pages whose freshness passes the window test,
sort newest-to-oldest (stable, `reverse=True`), and return the URLs. -/
def extract_urls (pages : List SitemapPage) (since_ago : PyDateTime) : List String :=
  (sortBy (fun a b => !(PyDateTime.ltB a.1 b.1)) (pages.filterMap (freshPair since_ago))).map
    Prod.snd

/-- `should_exclude`: some exclusion glob matches the URL. -/
def should_exclude (url : String) (patterns : List String) : Bool :=
  patterns.any (fun pat => globMatch pat.toList url.toList)

/-- `should_filter`: the inclusion set is empty, or some inclusion
substring occurs in the URL. -/
def should_filter (url : String) (filters : List String) : Bool :=
  if filters.isEmpty then true else filters.any (fun f => isInfixB f.toList url.toList)

/-- `candidates = set(extract_urls(...))` of `main` (set semantics:
deduplicated by URL). -/
def candidates (pages : List SitemapPage) (since_ago : PyDateTime) : List String :=
  (extract_urls pages since_ago).dedup

/-- `sorted(candidates)` of `main`: the full candidate list, emitted as
the `latest-urls` output. -/
def sortedCandidates (pages : List SitemapPage) (since_ago : PyDateTime) : List String :=
  sortStrings (candidates pages since_ago)

/-- The `processed` list of `main`: iterate `sorted(candidates)`,
dropping a URL when an exclusion glob matches, then when the inclusion
filter rejects it; emitted as the `processed-urls` output. -/
def processedUrls (pages : List SitemapPage) (since_ago : PyDateTime)
    (exclude_patterns filter_patterns : List String) : List String :=
  (sortedCandidates pages since_ago).filter
    (fun url => !(should_exclude url exclude_patterns) && should_filter url filter_patterns)

/-- Pattern parsing of `main`: newline-split, stripped, blank lines
dropped (used for both `--exclude-urls` and `--filter-urls`). -/
def parsePatterns (s : String) : List String :=
  ((splitlines s).map stripStr).filter (fun pat => !(pat == ""))

/-- The two GitHub-Actions outputs of `main`: `latest-urls` and
`processed-urls`. -/
def mainOutputs (pages : List SitemapPage) (since_ago : PyDateTime)
    (exclude_urls filter_urls : String) : List String × List String :=
  (sortedCandidates pages since_ago,
   processedUrls pages since_ago (parsePatterns exclude_urls) (parsePatterns filter_urls))

end GetUrls

/- ## Lemmas about the harvest/filter chain -/

theorem freshPair_eq_some (since_ago : PyDateTime) (p : GetUrls.SitemapPage)
    (pr : PyDateTime × String) :
    GetUrls.freshPair since_ago p = some pr ↔
      GetUrls.lastmodOf p = some pr.1 ∧ GetUrls.isNewerThan pr.1 since_ago = true ∧
        pr.2 = p.url := by
  rcases pr with ⟨t', u'⟩
  cases h : GetUrls.lastmodOf p with
  | none => simp [GetUrls.freshPair, h]
  | some t =>
      simp only [GetUrls.freshPair, h]
      by_cases hn : GetUrls.isNewerThan t since_ago = true
      · simp only [hn, if_true, Option.some.injEq, Prod.mk.injEq]
        constructor
        · rintro ⟨rfl, rfl⟩
          exact ⟨rfl, hn, rfl⟩
        · rintro ⟨h1, _, h3⟩
          have h1' : t = t' := by simpa using h1
          exact ⟨h1', h3.symm⟩
      · simp only [Bool.not_eq_true] at hn
        rw [hn]
        constructor
        · intro he
          simp at he
        · rintro ⟨h1, h2, _⟩
          have h1' : t = t' := by simpa using h1
          rw [← h1'] at h2
          rw [h2] at hn
          exact Bool.noConfusion hn

theorem mem_extract_urls (pages : List GetUrls.SitemapPage) (since_ago : PyDateTime)
    (url : String) :
    url ∈ GetUrls.extract_urls pages since_ago ↔
      ∃ p ∈ pages, p.url = url ∧ ∃ t, GetUrls.lastmodOf p = some t ∧
        GetUrls.isNewerThan t since_ago = true := by
  simp only [GetUrls.extract_urls, List.mem_map, mem_sortBy, List.mem_filterMap]
  constructor
  · rintro ⟨⟨t, u⟩, ⟨p, hp, hf⟩, hu⟩
    rcases (freshPair_eq_some since_ago p (t, u)).mp hf with ⟨h1, h2, h3⟩
    simp only at h1 h2 h3 hu
    exact ⟨p, hp, by rw [← h3, hu], t, h1, h2⟩
  · rintro ⟨p, hp, hurl, t, h1, h2⟩
    refine ⟨(t, url), ⟨p, hp, ?_⟩, rfl⟩
    exact (freshPair_eq_some since_ago p (t, url)).mpr ⟨h1, h2, hurl.symm⟩

theorem isNewerThan_iff (t since_ago : PyDateTime) :
    GetUrls.isNewerThan t since_ago = true ↔
      ((GetUrls.isDateOnly t = true ∧ dateLtB since_ago t = true) ∨
       (GetUrls.isDateOnly t = false ∧ PyDateTime.ltB since_ago t = true)) := by
  unfold GetUrls.isNewerThan
  cases h : GetUrls.isDateOnly t <;> simp [h]

theorem mem_sortedCandidates (pages : List GetUrls.SitemapPage) (since_ago : PyDateTime)
    (url : String) :
    url ∈ GetUrls.sortedCandidates pages since_ago ↔
      url ∈ GetUrls.extract_urls pages since_ago := by
  simp [GetUrls.sortedCandidates, GetUrls.candidates, sortStrings, mem_sortBy]

theorem sortedCandidates_nodup (pages : List GetUrls.SitemapPage) (since_ago : PyDateTime) :
    (GetUrls.sortedCandidates pages since_ago).Nodup :=
  sortBy_nodup (List.nodup_dedup _)

theorem sortedCandidates_sorted (pages : List GetUrls.SitemapPage) (since_ago : PyDateTime) :
    (GetUrls.sortedCandidates pages since_ago).Pairwise (fun a b => strLe a b = true) :=
  pairwise_sortBy strLe_total strLe_trans _

theorem processedUrls_sublist (pages : List GetUrls.SitemapPage) (since_ago : PyDateTime)
    (excl fil : List String) :
    GetUrls.processedUrls pages since_ago excl fil =
      (GetUrls.sortedCandidates pages since_ago).filter
        (fun url => !(GetUrls.should_exclude url excl) && GetUrls.should_filter url fil) := rfl

/-- C2: the time filter keeps a harvested item iff it carries a freshness
value that is newer than the cutoff — at date granularity for a date-only
(midnight) value, at full-instant granularity otherwise; a date-only
freshness equal to the cutoff's calendar date is excluded, and an item
with no freshness signal is always excluded. -/
theorem time_filter_keeps_iff_newer (pages : List GetUrls.SitemapPage)
    (since_ago : PyDateTime) (url : String) :
    (url ∈ GetUrls.extract_urls pages since_ago ↔
      ∃ p ∈ pages, p.url = url ∧ ∃ t, GetUrls.lastmodOf p = some t ∧
        ((GetUrls.isDateOnly t = true ∧ dateLtB since_ago t = true) ∨
         (GetUrls.isDateOnly t = false ∧ PyDateTime.ltB since_ago t = true)))
    ∧ (∀ p t, GetUrls.lastmodOf p = some t → GetUrls.isDateOnly t = true →
        t.dateTriple = since_ago.dateTriple → GetUrls.extract_urls [p] since_ago = [])
    ∧ (∀ p, GetUrls.lastmodOf p = none → GetUrls.extract_urls [p] since_ago = []) := by
  refine ⟨?_, ?_, ?_⟩
  · rw [mem_extract_urls]
    constructor
    · rintro ⟨p, hp, hu, t, h1, h2⟩
      exact ⟨p, hp, hu, t, h1, (isNewerThan_iff t since_ago).mp h2⟩
    · rintro ⟨p, hp, hu, t, h1, h2⟩
      exact ⟨p, hp, hu, t, h1, (isNewerThan_iff t since_ago).mpr h2⟩
  · intro p t h1 h2 h3
    have hy : t.year = since_ago.year := congrArg (fun x => x.1) h3
    have hm : t.month = since_ago.month := congrArg (fun x => x.2.1) h3
    have hd : t.day = since_ago.day := congrArg (fun x => x.2.2) h3
    have hlt : dateLtB since_ago t = false := by
      simp [dateLtB, hy, hm, hd]
    have hnew : GetUrls.isNewerThan t since_ago = false := by
      simp [GetUrls.isNewerThan, h2, hlt]
    simp [GetUrls.extract_urls, GetUrls.freshPair, h1, hnew, sortBy]
  · intro p h1
    simp [GetUrls.extract_urls, GetUrls.freshPair, h1, sortBy]

/-- Witness for C2 at the spec's boundary scenario: a date-only freshness
whose calendar date equals the cutoff's date is excluded. -/
theorem time_filter_keeps_iff_newer_witness :
    GetUrls.extract_urls
      [{ url := "https://b", last_modified := some ⟨2024, 1, 5, 0, 0, 0, 0⟩,
         news_publish_date := none }] ⟨2024, 1, 5, 12, 0, 0, 0⟩ = [] :=
  (time_filter_keeps_iff_newer [] ⟨2024, 1, 5, 12, 0, 0, 0⟩ "x").2.1
    { url := "https://b", last_modified := some ⟨2024, 1, 5, 0, 0, 0, 0⟩,
      news_publish_date := none }
    ⟨2024, 1, 5, 0, 0, 0, 0⟩ rfl (by decide) (by decide)

/-- C4: both emitted lists are deduplicated by URL and lexicographically
sorted; a URL harvested several times yields exactly one entry in the
candidate list, and (with no filters configured, the dedup scenario)
exactly one entry in the processed list as well. -/
theorem outputs_dedup_sorted (pages : List GetUrls.SitemapPage) (since_ago : PyDateTime)
    (excl fil : List String) :
    (GetUrls.sortedCandidates pages since_ago).Nodup
    ∧ (GetUrls.sortedCandidates pages since_ago).Pairwise (fun a b => strLe a b = true)
    ∧ (GetUrls.processedUrls pages since_ago excl fil).Nodup
    ∧ (GetUrls.processedUrls pages since_ago excl fil).Pairwise
        (fun a b => strLe a b = true)
    ∧ (∀ url ∈ GetUrls.extract_urls pages since_ago,
        (GetUrls.sortedCandidates pages since_ago).count url = 1 ∧
        (GetUrls.processedUrls pages since_ago [] []).count url = 1) := by
  refine ⟨sortedCandidates_nodup pages since_ago, sortedCandidates_sorted pages since_ago,
    (sortedCandidates_nodup pages since_ago).filter _,
    (sortedCandidates_sorted pages since_ago).filter _, ?_⟩
  intro url hu
  have hmem : url ∈ GetUrls.sortedCandidates pages since_ago :=
    (mem_sortedCandidates pages since_ago url).mpr hu
  constructor
  · exact List.count_eq_one_of_mem (sortedCandidates_nodup pages since_ago) hmem
  · have heq : GetUrls.processedUrls pages since_ago [] [] =
        GetUrls.sortedCandidates pages since_ago := by
      simp [GetUrls.processedUrls, GetUrls.should_exclude, GetUrls.should_filter]
    rw [heq]
    exact List.count_eq_one_of_mem (sortedCandidates_nodup pages since_ago) hmem

/-- Witness for C4: a URL harvested twice with different freshness values
has exactly one entry in each output list. -/
theorem outputs_dedup_sorted_witness :
    (GetUrls.sortedCandidates
      [{ url := "https://s/p", last_modified := some ⟨2024, 1, 10, 12, 0, 0, 0⟩,
         news_publish_date := none },
       { url := "https://s/p", last_modified := some ⟨2024, 2, 1, 8, 0, 0, 0⟩,
         news_publish_date := none }] ⟨2024, 1, 1, 0, 0, 0, 0⟩).count "https://s/p" = 1 ∧
    (GetUrls.processedUrls
      [{ url := "https://s/p", last_modified := some ⟨2024, 1, 10, 12, 0, 0, 0⟩,
         news_publish_date := none },
       { url := "https://s/p", last_modified := some ⟨2024, 2, 1, 8, 0, 0, 0⟩,
         news_publish_date := none }] ⟨2024, 1, 1, 0, 0, 0, 0⟩ [] []).count "https://s/p" = 1 :=
  (outputs_dedup_sorted
    [{ url := "https://s/p", last_modified := some ⟨2024, 1, 10, 12, 0, 0, 0⟩,
       news_publish_date := none },
     { url := "https://s/p", last_modified := some ⟨2024, 2, 1, 8, 0, 0, 0⟩,
       news_publish_date := none }] ⟨2024, 1, 1, 0, 0, 0, 0⟩ [] []).2.2.2.2
    "https://s/p" (by decide)

/-- C5: a candidate URL is processed iff no exclusion glob matches it and
the inclusion set is empty or some inclusion substring occurs in it;
exclusion is decided first, so a URL matching both an exclusion pattern
and an inclusion filter is excluded. -/
theorem processed_iff_exclusion_inclusion (pages : List GetUrls.SitemapPage)
    (since_ago : PyDateTime) (excl fil : List String) (url : String) :
    (url ∈ GetUrls.processedUrls pages since_ago excl fil ↔
      url ∈ GetUrls.sortedCandidates pages since_ago ∧
        GetUrls.should_exclude url excl = false ∧
        (fil = [] ∨ ∃ f ∈ fil, isInfixB f.toList url.toList = true))
    ∧ (GetUrls.should_exclude url excl = true →
        url ∉ GetUrls.processedUrls pages since_ago excl fil) := by
  have hf : GetUrls.should_filter url fil = true ↔
      (fil = [] ∨ ∃ f ∈ fil, isInfixB f.toList url.toList = true) := by
    cases fil with
    | nil => simp [GetUrls.should_filter]
    | cons a l => simp [GetUrls.should_filter, List.any_eq_true]
  constructor
  · simp only [GetUrls.processedUrls, List.mem_filter, Bool.and_eq_true, Bool.not_eq_true']
    rw [hf]
  · intro hex hmem
    simp only [GetUrls.processedUrls, List.mem_filter, Bool.and_eq_true,
      Bool.not_eq_true'] at hmem
    rw [hmem.2.1] at hex
    exact Bool.noConfusion hex

/-- Witness for C5 (the spec's precedence scenario): a URL matching both
the exclusion glob and the inclusion substring is excluded. -/
theorem processed_iff_exclusion_inclusion_witness :
    "https://s/draft/p2" ∉ GetUrls.processedUrls
      [{ url := "https://s/p1", last_modified := some ⟨2024, 1, 10, 12, 0, 0, 0⟩,
         news_publish_date := none },
       { url := "https://s/draft/p2", last_modified := some ⟨2024, 1, 10, 13, 0, 0, 0⟩,
         news_publish_date := none }] ⟨2024, 1, 1, 0, 0, 0, 0⟩ ["*/draft/*"] ["draft"] :=
  (processed_iff_exclusion_inclusion
    [{ url := "https://s/p1", last_modified := some ⟨2024, 1, 10, 12, 0, 0, 0⟩,
       news_publish_date := none },
     { url := "https://s/draft/p2", last_modified := some ⟨2024, 1, 10, 13, 0, 0, 0⟩,
       news_publish_date := none }] ⟨2024, 1, 1, 0, 0, 0, 0⟩ ["*/draft/*"] ["draft"]
    "https://s/draft/p2").2 (by decide)

/- ## post_urls.py: effect model -/

/-- One observable action of `post_urls.py` against the outside world.
`fetch` is a read-only HTTP GET (`requests.get` via `fetch_post`; the
script's `lru_cache` only suppresses duplicate GETs of the same URL, so
presence of a URL among the `fetch` effects is unchanged by it),
`post` is a webmention HTTP POST, `runCmd` is the `subprocess.run`
invocation of the external posting backend, `log` is a diagnostic line. -/
inductive Effect where
  | fetch (url : String)
  | post (endpoint source target : String)
  | runCmd (cmd : List String)
  | log (msg : String)
deriving DecidableEq, Repr

/-- A hyperlink-bearing element (`link`/`a`) carrying a `rel` attribute,
as returned by `soup.find_all(["link", "a"], rel=True)`: its relation
tokens (BeautifulSoup splits a string-valued `rel` on whitespace) and
its optional `href`. -/
structure RelTag where
  rels : List String
  href : Option String
deriving DecidableEq, Repr

/-- The parse of one fetched page, restricted to what `post_urls.py`
reads: the rel-bearing elements in document order, the meta description,
the contents of `article:tag` meta properties in document order, and the
hrefs of anchors inside the `e-content` element (absent when the page
has no `e-content` region). -/
structure PostPage where
  relTags : List RelTag
  metaDescription : Option String
  articleTags : List String
  econtent : Option (List String)
deriving DecidableEq, Repr

/-- The external collaborators of `post_urls.py`: `fetch` is the
HTTP/HTML layer (`none` models a raised fetch/parse error), `postStatus`
the outcome of a webmention POST (`some status` for a completed HTTP
exchange, `none` for a raised transport exception such as a connection
error or timeout), `runOk` whether the external posting backend exits
successfully, and `urljoin` is `requests.compat.urljoin`. -/
structure World where
  fetch : String → Option PostPage
  postStatus : String → String → String → Option Nat
  runOk : List String → Bool
  urljoin : String → String → String

/-- Append-concatenation of an effect-producing map over a list. -/
def concatMap (f : α → List β) : List α → List β
  | [] => []
  | x :: xs => f x ++ concatMap f xs

/- ## Placeholder machinery (`re` / `str.format` collaborators) -/

/-- Drop leading spaces (the ` *` of the placeholder regexes). -/
def dropSpaces : List Char → List Char
  | ' ' :: rest => dropSpaces rest
  | l => l

/-- Match a literal character sequence, returning the remainder. -/
def dropLit : List Char → List Char → Option (List Char)
  | [], l => some l
  | _ :: _, [] => none
  | x :: xs, y :: ys => if x = y then dropLit xs ys else none

/-- Match the regex `\x7b *name *\x7d` at the head of the input,
returning the remainder after the closing brace. -/
def matchPH (name : List Char) : List Char → Option (List Char)
  | '{' :: rest =>
      match dropLit name (dropSpaces rest) with
      | none => none
      | some r2 =>
          match dropSpaces r2 with
          | '}' :: r3 => some r3
          | _ => none
  | _ => none

/-- `re.search` for the placeholder pattern: does it occur anywhere? -/
def containsPH (name : String) : List Char → Bool
  | [] => false
  | c :: rest => (matchPH name.toList (c :: rest)).isSome || containsPH name rest

/-- Fuel-driven worker for `re.sub` of the placeholder pattern (each
step consumes one subject character or a whole placeholder occurrence,
so `length + 1` fuel suffices; the fuel only makes this structural). -/
def replacePHF (name repl : List Char) : Nat → List Char → List Char
  | 0, l => l
  | _ + 1, [] => []
  | fuel + 1, c :: rest =>
      match matchPH name (c :: rest) with
      | some after => repl ++ replacePHF name repl fuel after
      | none => c :: replacePHF name repl fuel rest

/-- `re.sub` of every placeholder occurrence (left-to-right,
non-overlapping), e.g. of `\x7b *tags *\x7d`. -/
def replacePH (name repl msg : String) : String :=
  String.mk (replacePHF name.toList repl.toList (msg.toList.length + 1) msg.toList)

/-- Fuel-driven worker for literal-substring replacement. -/
def replaceLitF (pat repl : List Char) : Nat → List Char → List Char
  | 0, l => l
  | _ + 1, [] => []
  | fuel + 1, c :: rest =>
      match dropLit pat (c :: rest) with
      | some after => repl ++ replaceLitF pat repl fuel after
      | none => c :: replaceLitF pat repl fuel rest

/-- `message.format(url=url, description=description)` for the exact
field references the script's templates use (`str.format` is a stdlib
collaborator; field substitution is what the script relies on). -/
def formatUrlDesc (msg url desc : String) : String :=
  let l1 := replaceLitF "{url}".toList url.toList (msg.toList.length + 1) msg.toList
  String.mk (replaceLitF "{description}".toList desc.toList (l1.length + 1) l1)

/-- ASCII-alphanumeric test: the character class `[0-9a-zA-Z]` of the
tag-normalization regex. -/
def isAlnumChar (c : Char) : Bool :=
  ('0' ≤ c && c ≤ '9') || ('a' ≤ c && c ≤ 'z') || ('A' ≤ c && c ≤ 'Z')

/-- `re.sub("[^0-9a-zA-Z]+", "", t)`: strip every non-alphanumeric
character (case is preserved). -/
def stripNonAlnum (t : String) : String := String.mk (t.toList.filter isAlnumChar)

/-- The hashtag formatting of `build_crosspost_cmd`: normalize each tag,
drop empties, prefix `#`, deduplicate (set semantics), sort, and join
with single spaces. -/
def hashtagsOf (tags : List String) : String :=
  let normalized_tags := (tags.map stripNonAlnum).dedup
  joinSep " " (sortStrings
    (((normalized_tags.filter (fun t => !(t == ""))).map (fun t => "#" ++ t)).dedup))

/-- Worker for Python's `str.split()` (split on whitespace runs,
dropping empty pieces). -/
def splitWsAux (acc : List Char) : List Char → List String
  | [] => if acc.isEmpty then [] else [String.mk acc.reverse]
  | c :: rest =>
      if c.isWhitespace then
        (if acc.isEmpty then splitWsAux [] rest
         else String.mk acc.reverse :: splitWsAux [] rest)
      else splitWsAux (c :: acc) rest

/-- Python's `str.split()` with no separator argument. -/
def splitWs (s : String) : List String := splitWsAux [] s.toList

/- ## post_urls.py: the script -/

namespace PostUrls

/-- The result of a run: normal completion, or a process exit with a
code — `sys.exit(1)` and a fatal uncaught exception both end the
process with exit code 1. -/
inductive RunResult where
  | ok
  | exited (code : Nat)
deriving DecidableEq, Repr

/-- `post_webmention_to_endpoint`: POST the source/target pair to the
endpoint; 2xx (200/201/202) is success.  `requests.post` itself may
raise a transport exception — the function has no handler, so `none`
propagates to the caller.  (The Python failure message also embeds the
response body; the body is a transport detail elided here.) -/
def post_webmention_to_endpoint (w : World) (source endpoint target : String) :
    Option (Bool × String) × List Effect :=
  match w.postStatus endpoint source target with
  | none => (none, [Effect.post endpoint source target])
  | some st =>
      (some (if st = 200 ∨ st = 201 ∨ st = 202 then
               (true, "Webmention sent via " ++ endpoint)
             else (false, "Webmention failed: " ++ toString st)),
       [Effect.post endpoint source target])

/-- The endpoint-discovery loop of `send_webmention`: the first
rel-bearing element whose relation tokens contain `webmention`
case-insensitively and whose `href` is present and non-empty wins;
a matching element with a missing or empty `href` is passed over. -/
def findEndpoint : List RelTag → Option String
  | [] => none
  | t :: rest =>
      if t.rels.any (fun r => lowerStr r == "webmention") then
        match t.href with
        | some h => if h == "" then findEndpoint rest else some h
        | none => findEndpoint rest
      else findEndpoint rest

/-- `send_webmention`: fetch the target, discover its endpoint, resolve
it against the target's base and POST; the whole body sits in one
`try`, so a fetch error or a POST transport exception is caught and
reported as the non-fatal `(False, "Webmention error …")` result
(`Option.getD` supplies the `except` clause's value). -/
def send_webmention (w : World) (source target : String) : (Bool × String) × List Effect :=
  match w.fetch target with
  | none => ((false, "Webmention error for " ++ target), [Effect.fetch target])
  | some page =>
      match findEndpoint page.relTags with
      | none => ((false, "No webmention endpoint found for " ++ target), [Effect.fetch target])
      | some h =>
          let pr := post_webmention_to_endpoint w source (w.urljoin target h) target
          (pr.1.getD (false, "Webmention error for " ++ target),
           Effect.fetch target :: pr.2)

/-- The per-target body of `notify_webmention_hosts`.  Only the source
fetch is wrapped in a `try`; the explicit-endpoint call of
`post_webmention_to_endpoint` is not, so a transport exception raised
there propagates out of the loop (first component `some (exited 1)`:
the uncaught exception terminates the process non-zero).  The
discovery branch goes through `send_webmention`, which catches its own
errors. -/
def notifyOne (w : World) (source_url endpoint : String) (dry_run : Bool)
    (target : String) : Option RunResult × List Effect :=
  let banner :=
    Effect.log ("🌐 Notifying webmention target: source=" ++ source_url ++ " target=" ++ target)
  if dry_run then
    (none, [banner,
      Effect.log ("✅ Would send webmention: source=" ++ source_url ++ " target=" ++ target)])
  else
    match w.fetch source_url with
    | none =>
        (none, [banner, Effect.fetch source_url,
          Effect.log ("⚠️ Could not fetch source " ++ source_url ++
            " before notifying " ++ target)])
    | some _ =>
        if endpoint == "" then
          let pr := send_webmention w source_url target
          (none, banner :: Effect.fetch source_url ::
            (pr.2 ++ [Effect.log ((if pr.1.1 then "✅ " else "⚠️ ") ++ pr.1.2)]))
        else
          let pr := post_webmention_to_endpoint w source_url endpoint target
          match pr.1 with
          | none => (some (RunResult.exited 1), banner :: Effect.fetch source_url :: pr.2)
          | some r =>
              (none, banner :: Effect.fetch source_url ::
                (pr.2 ++ [Effect.log ((if r.1 then "✅ " else "⚠️ ") ++ r.2)]))

/-- `notify_webmention_hosts`: webmentions to each static target (after
checking the source is deployed); an explicit endpoint overrides
discovery.  Outcomes are logged — except that an uncaught transport
exception from the explicit-endpoint POST stops the loop and
propagates.  (The Python parameter order is `(source_url, targets,
endpoint, dry_run)`; `targets` is last here for structural
recursion.) -/
def notify_webmention_hosts (w : World) (source_url endpoint : String)
    (dry_run : Bool) : List String → Option RunResult × List Effect
  | [] => (none, [])
  | target :: rest =>
      let pr := notifyOne w source_url endpoint dry_run target
      match pr.1 with
      | some r => (some r, pr.2)
      | none =>
          let res := notify_webmention_hosts w source_url endpoint dry_run rest
          (res.1, pr.2 ++ res.2)

/-- The external-link collection of `send_webmentions_to_external_links`:
anchors in `e-content` whose href is absolute (`http...`) and does not
start with the source URL, as a set. -/
def externalLinks (source_url : String) (hrefs : List String) : List String :=
  (hrefs.filter (fun href => startsWithB href "http" && !(startsWithB href source_url))).dedup

/-- `send_webmentions_to_external_links`: scan the source page's
`e-content` for external links and send each a webmention; every
failure (fetch error, missing region, no links, delivery failure) is
only logged. -/
def send_webmentions_to_external_links (w : World) (source_url : String)
    (dry_run : Bool) : List Effect :=
  match w.fetch source_url with
  | none =>
      [Effect.fetch source_url,
       Effect.log ("⚠️ Error scanning " ++ source_url ++ " for dynamic webmentions")]
  | some page =>
      match page.econtent with
      | none =>
          [Effect.fetch source_url,
           Effect.log ("ℹ️ No e-content found in " ++ source_url ++
             ", skipping dynamic webmentions.")]
      | some hrefs =>
          let links := externalLinks source_url hrefs
          if links.isEmpty then
            [Effect.fetch source_url,
             Effect.log ("ℹ️ No external links found in e-content of " ++ source_url ++ ".")]
          else
            Effect.fetch source_url ::
              concatMap (fun target =>
                Effect.log ("🌐 Sending webmention to external link: source=" ++
                  source_url ++ " target=" ++ target)
                  :: (if dry_run then
                        [Effect.log ("✅ Would send webmention: source=" ++ source_url ++
                          " target=" ++ target)]
                      else
                        let pr := send_webmention w source_url target
                        pr.2 ++ [Effect.log ((if pr.1.1 then "✅ " else "⚠️ ") ++ pr.1.2)]))
                (sortStrings links)

/-- `extract_description`: the page's meta description if present and
non-empty, else the empty string; fetch errors are caught. -/
def extract_description (w : World) (url : String) : String × List Effect :=
  match w.fetch url with
  | none => ("", [Effect.fetch url, Effect.log ("⚠️ Could not fetch description from " ++ url)])
  | some page =>
      ((match page.metaDescription with
        | some c => if c == "" then "" else c
        | none => ""), [Effect.fetch url])

/-- `extract_og_tags`: the set of non-empty `article:tag` contents;
fetch errors are caught and yield the empty set. -/
def extract_og_tags (w : World) (url : String) : List String × List Effect :=
  match w.fetch url with
  | none => ([], [Effect.fetch url, Effect.log ("⚠️ Could not fetch OG tags from " ++ url)])
  | some page => ((page.articleTags.filter (fun t => !(t == ""))).dedup, [Effect.fetch url])

/-- `message_needs_description`: the template references the
description placeholder. -/
def message_needs_description (message : String) : Bool :=
  containsPH "description" message.toList

/-- `message_needs_tags`: the template references the tags placeholder. -/
def message_needs_tags (message : String) : Bool :=
  containsPH "tags" message.toList

/-- The environment of one run: each credential variable is a string
(`""` models both unset and empty, which `os.getenv` truthiness cannot
distinguish); `LIMIT` is the parsed integer value (`int()` of the raw
string; `none` = unset, defaulting to `"0"`), `FAILURE_STRATEGY` is the
raw optional string. -/
structure Env where
  TWITTER_ACCESS_TOKEN_KEY : String
  TWITTER_ACCESS_TOKEN_SECRET : String
  TWITTER_API_CONSUMER_KEY : String
  TWITTER_API_CONSUMER_SECRET : String
  MASTODON_HOST : String
  MASTODON_ACCESS_TOKEN : String
  BLUESKY_HOST : String
  BLUESKY_IDENTIFIER : String
  BLUESKY_PASSWORD : String
  LINKEDIN_ACCESS_TOKEN : String
  DISCORD_BOT_TOKEN : String
  DISCORD_CHANNEL_ID : String
  DISCORD_WEBHOOK_URL : String
  DEVTO_API_KEY : String
  TELEGRAM_BOT_TOKEN : String
  TELEGRAM_CHAT_ID : String
  SLACK_TOKEN : String
  SLACK_CHANNEL : String
  LIMIT : Option Int
  FAILURE_STRATEGY : Option String
  WEBMENTION_ENDPOINT : String
  WEBMENTION_TARGET_HOSTS : String
  WEBMENTION_SCAN_CONTENT : String
deriving DecidableEq, Repr

/-- An environment with nothing configured. -/
def emptyEnv : Env :=
  ⟨"", "", "", "", "", "", "", "", "", "", "", "", "", "", "", "", "", "",
   none, none, "", "", ""⟩

/-- The channel-flag block of `build_crosspost_cmd`: one flag per
channel whose required credential variables are all non-empty (Twitter
accepts either of its two credential pairs). -/
def channelFlags (env : Env) : List String :=
  (if (env.TWITTER_ACCESS_TOKEN_KEY != "" && env.TWITTER_ACCESS_TOKEN_SECRET != "") ||
      (env.TWITTER_API_CONSUMER_KEY != "" && env.TWITTER_API_CONSUMER_SECRET != "")
   then ["--twitter"] else [])
  ++ (if env.MASTODON_HOST != "" && env.MASTODON_ACCESS_TOKEN != ""
      then ["--mastodon"] else [])
  ++ (if env.BLUESKY_HOST != "" && env.BLUESKY_IDENTIFIER != "" &&
        env.BLUESKY_PASSWORD != ""
      then ["--bluesky"] else [])
  ++ (if env.LINKEDIN_ACCESS_TOKEN != "" then ["--linkedin"] else [])
  ++ (if env.DISCORD_BOT_TOKEN != "" && env.DISCORD_CHANNEL_ID != ""
      then ["--discord"] else [])
  ++ (if env.DISCORD_WEBHOOK_URL != "" then ["--discord-webhook"] else [])
  ++ (if env.DEVTO_API_KEY != "" then ["--devto"] else [])
  ++ (if env.TELEGRAM_BOT_TOKEN != "" && env.TELEGRAM_CHAT_ID != ""
      then ["--telegram"] else [])
  ++ (if env.SLACK_TOKEN != "" && env.SLACK_CHANNEL != "" then ["--slack"] else [])

/-- `build_crosspost_cmd`: `["npx", "crosspost"]`, the active channel
flags, then the formatted message (description and tags are fetched only
when the template references them; the tag placeholder is replaced by
the formatted hashtags, or by nothing when the tag set is empty). -/
def build_crosspost_cmd (w : World) (env : Env) (message url : String) :
    List String × List Effect :=
  let dpr := if message_needs_description message
             then extract_description w url else ("", [])
  let tpr :=
    if message_needs_tags message then
      let og := extract_og_tags w url
      ((if og.1.isEmpty then replacePH "tags" "" message
        else replacePH "tags" (hashtagsOf og.1) message), og.2)
    else (message, ([] : List Effect))
  ((["npx", "crosspost"] ++ channelFlags env) ++ [formatUrlDesc tpr.1 url dpr.1],
   dpr.2 ++ tpr.2)

/-- The CLI arguments of `post_urls.py` (as parsed by `parse_args`). -/
structure Args where
  urls : String
  limit : Int
  failure_strategy : String
  dry_run : Bool
  message : String
deriving DecidableEq, Repr

/-- `os.getenv("FAILURE_STRATEGY", "ignore").lower()`. -/
def failureStrategyOf (env : Env) : String := lowerStr (env.FAILURE_STRATEGY.getD "ignore")

/-- `int(os.getenv("LIMIT", "0")) or None`. -/
def limitOf (env : Env) : Option Int :=
  let v := env.LIMIT.getD 0
  if v = 0 then none else some v

/-- Python's `l[:n]` for an integer bound (negative bounds drop from
the end). -/
def pySliceTo (n : Int) (l : List String) : List String :=
  if 0 ≤ n then l.take n.toNat else l.take (l.length - (-n).toNat)

/-- `urls = args.urls.splitlines(); if limit: urls = urls[:limit]`. -/
def selectUrls (env : Env) (args : Args) : List String :=
  match limitOf env with
  | none => splitlines args.urls
  | some n => pySliceTo n (splitlines args.urls)

/-- The webmention host-list parsing of `main`: commas become spaces,
whitespace-split, stripped, empties dropped. -/
def parseHosts (s : String) : List String :=
  ((splitWs (String.mk (s.toList.map (fun c => if c = ',' then ' ' else c)))).map
    stripStr).filter (fun h => !(h == ""))

/-- `main`'s social-network test: the probe command built for
`https://example.com` has more than two elements. -/
def social_networks_enabled (w : World) (env : Env) (message : String) : Bool :=
  decide ((build_crosspost_cmd w env message "https://example.com").1.length > 2)

/-- `main`'s webmention test: static target hosts configured, or
content scanning enabled. -/
def webmentions_enabled (env : Env) : Bool :=
  !(parseHosts env.WEBMENTION_TARGET_HOSTS).isEmpty ||
    lowerStr env.WEBMENTION_SCAN_CONTENT == "true"


/-- The crosspost stage of `main`'s per-URL loop: build the command;
in dry-run only log the simulation; otherwise run the backend, and on
failure log it and — only under the `fail` strategy — exit 1. -/
def crosspostStep (w : World) (env : Env) (message : String) (dry_run : Bool)
    (failure_strategy : String) (social : Bool) (url : String) :
    Option RunResult × List Effect :=
  if social then
    let bc := build_crosspost_cmd w env message url
    if dry_run then
      (none, bc.2 ++
        [Effect.log ("✅ Would post " ++ url ++ " with command: " ++ joinSep " " bc.1)])
    else
      let tr0 := bc.2 ++ [Effect.log ("🚀 Posting " ++ url ++ " ..."), Effect.runCmd bc.1]
      if w.runOk bc.1 then (none, tr0)
      else
        let tr1 := tr0 ++ [Effect.log ("⚠️ Failed to post " ++ url)]
        if failure_strategy == "fail" then (some (RunResult.exited 1), tr1)
        else (none, tr1)
  else (none, [])

/-- The webmention stage of `main`'s per-URL loop: static targets, then
the dynamic content scan, each only when configured.  An uncaught
exception from the static-target loop propagates (first component) and
the scan is never reached. -/
def webmentionStep (w : World) (dry_run : Bool) (webm : Bool) (hosts : List String)
    (endpoint : String) (scan : Bool) (url : String) : Option RunResult × List Effect :=
  if webm then
    let pr := if !hosts.isEmpty then notify_webmention_hosts w url endpoint dry_run hosts
              else (none, [])
    match pr.1 with
    | some r => (some r, pr.2)
    | none =>
        (none, pr.2 ++
          (if scan then send_webmentions_to_external_links w url dry_run else []))
  else (none, [])

/-- Crosspost delivery for this URL is attempted (crossposting active,
not a dry run) and the backend fails. -/
def crosspostFailsOn (w : World) (env : Env) (message : String) (dry_run : Bool)
    (social : Bool) (url : String) : Bool :=
  social && !dry_run && !(w.runOk (build_crosspost_cmd w env message url).1)

/-- The per-URL dispatch loop of `main`: the crosspost stage (which may
exit the run), then the webmention stage (whose uncaught exception also
ends the run), then the next URL. -/
def processUrls (w : World) (env : Env) (message : String) (dry_run : Bool)
    (failure_strategy : String) (social webm : Bool) (hosts : List String)
    (endpoint : String) (scan : Bool) : List String → RunResult × List Effect
  | [] => (RunResult.ok, [])
  | url :: rest =>
      match crosspostStep w env message dry_run failure_strategy social url with
      | (some r, tr) => (r, tr)
      | (none, tr) =>
          let wpr := webmentionStep w dry_run webm hosts endpoint scan url
          match wpr.1 with
          | some r => (r, tr ++ wpr.2)
          | none =>
              let res := processUrls w env message dry_run failure_strategy social webm
                hosts endpoint scan rest
              (res.1, tr ++ wpr.2 ++ res.2)

/-- `main` after URL selection: probe channel activation, abort when
neither social networks nor webmentions are configured, else run the
dispatch loop. -/
def mainWithUrls (w : World) (env : Env) (args : Args) (urls : List String) :
    RunResult × List Effect :=
  let social := social_networks_enabled w env args.message
  let webm := webmentions_enabled env
  let test := build_crosspost_cmd w env args.message "https://example.com"
  if !social && !webm then
    (RunResult.exited 1,
     test.2 ++ [Effect.log "❌ No social networks or webmentions configured. Aborting."])
  else
    let res := processUrls w env args.message args.dry_run (failureStrategyOf env) social
      webm (parseHosts env.WEBMENTION_TARGET_HOSTS) (stripStr env.WEBMENTION_ENDPOINT)
      (lowerStr env.WEBMENTION_SCAN_CONTENT == "true") urls
    (res.1, test.2 ++ res.2)

/-- `main` of post_urls.py. -/
def main (w : World) (env : Env) (args : Args) : RunResult × List Effect :=
  mainWithUrls w env args (selectUrls env args)

end PostUrls

namespace PostUrls

theorem crosspostStep_fst (w : World) (env : Env) (message : String) (dry_run : Bool)
    (fs : String) (social : Bool) (url : String) :
    (crosspostStep w env message dry_run fs social url).1 =
      if crosspostFailsOn w env message dry_run social url && (fs == "fail")
      then some (RunResult.exited 1) else none := by
  unfold crosspostStep crosspostFailsOn
  cases social with
  | false => simp
  | true =>
      cases dry_run with
      | true => simp
      | false =>
          cases hr : w.runOk (build_crosspost_cmd w env message url).1 with
          | true => simp [hr]
          | false =>
              cases hf : (fs == "fail") with
              | true => simp [hr, hf]
              | false => simp [hr, hf]

theorem notifyOne_fst_none (w : World) (hpost : ∀ a b c, w.postStatus a b c ≠ none)
    (s ep : String) (dry : Bool) (t : String) : (notifyOne w s ep dry t).1 = none := by
  unfold notifyOne
  cases dry with
  | true => rfl
  | false =>
      dsimp only
      cases hf : w.fetch s with
      | none => rfl
      | some _ =>
          by_cases he : (ep == "") = true
          · simp [he]
          · have he' : (ep == "") = false := by
              cases hv : (ep == "")
              · rfl
              · exact absurd hv he
            simp only [he', Bool.false_eq_true, if_false]
            rcases hps : w.postStatus ep s t with _ | st
            · exact absurd hps (hpost ep s t)
            · simp [post_webmention_to_endpoint, hps]

theorem notify_hosts_fst_none (w : World) (hpost : ∀ a b c, w.postStatus a b c ≠ none)
    (s ep : String) (dry : Bool) :
    ∀ targets, (notify_webmention_hosts w s ep dry targets).1 = none := by
  intro targets
  induction targets with
  | nil => rfl
  | cons t rest ih =>
      have h1 := notifyOne_fst_none w hpost s ep dry t
      rcases hp : notifyOne w s ep dry t with ⟨pf, ptr⟩
      rw [hp] at h1
      simp only at h1
      subst h1
      simp only [notify_webmention_hosts]
      rw [hp]
      dsimp only
      exact ih

theorem webmentionStep_fst_none (w : World)
    (hpost : ∀ a b c, w.postStatus a b c ≠ none) (dry webm : Bool)
    (hosts : List String) (ep : String) (scan : Bool) (url : String) :
    (webmentionStep w dry webm hosts ep scan url).1 = none := by
  unfold webmentionStep
  cases webm with
  | false => rfl
  | true =>
      dsimp only
      by_cases hh : (!hosts.isEmpty) = true
      · simp only [hh, if_true]
        have h1 := notify_hosts_fst_none w hpost url ep dry hosts
        rcases hp : notify_webmention_hosts w url ep dry hosts with ⟨pf, ptr⟩
        rw [hp] at h1
        simp only at h1
        subst h1
        rfl
      · have hh' : (!hosts.isEmpty) = false := by
          cases hv : (!hosts.isEmpty)
          · rfl
          · exact absurd hv hh
        simp [hh']

theorem processUrls_fst (w : World) (env : Env) (message : String) (dry_run : Bool)
    (fs : String) (social webm : Bool) (hosts : List String) (ep : String) (scan : Bool)
    (hpost : ∀ a b c, w.postStatus a b c ≠ none) :
    ∀ urls, (processUrls w env message dry_run fs social webm hosts ep scan urls).1 =
      if (fs == "fail") && urls.any (crosspostFailsOn w env message dry_run social)
      then RunResult.exited 1 else RunResult.ok := by
  intro urls
  induction urls with
  | nil => simp [processUrls]
  | cons url rest ih =>
      have hc := crosspostStep_fst w env message dry_run fs social url
      rcases hcp : crosspostStep w env message dry_run fs social url with ⟨cf, ctr⟩
      rw [hcp] at hc
      simp only at hc
      by_cases hcond :
          (crosspostFailsOn w env message dry_run social url && (fs == "fail")) = true
      · rw [if_pos hcond] at hc
        rcases Bool.and_eq_true .. |>.mp hcond with ⟨hc1, hc2⟩
        simp only [processUrls]
        rw [hcp, hc]
        simp [List.any_cons, hc1, hc2]
      · have hcond' :
            (crosspostFailsOn w env message dry_run social url && (fs == "fail")) = false := by
          cases hv : (crosspostFailsOn w env message dry_run social url && (fs == "fail"))
          · rfl
          · exact absurd hv hcond
        rw [if_neg hcond] at hc
        simp only [processUrls]
        rw [hcp, hc]
        dsimp only
        have hw := webmentionStep_fst_none w hpost dry_run webm hosts ep scan url
        rcases hwp : webmentionStep w dry_run webm hosts ep scan url with ⟨wf, wtr⟩
        rw [hwp] at hw
        simp only at hw
        subst hw
        dsimp only
        rw [ih]
        by_cases hfs : (fs == "fail") = true
        · have hcu : crosspostFailsOn w env message dry_run social url = false := by
            cases hv : crosspostFailsOn w env message dry_run social url
            · rfl
            · rw [hv, hfs] at hcond'
              exact Bool.noConfusion hcond'
          simp [List.any_cons, hfs, hcu]
        · have hfs' : (fs == "fail") = false := by
            cases hv : (fs == "fail")
            · rfl
            · exact absurd hv hfs
          simp [hfs']

theorem main_fst (w : World) (env : Env) (args : Args)
    (hpost : ∀ a b c, w.postStatus a b c ≠ none) :
    (main w env args).1 =
      if !(social_networks_enabled w env args.message) && !(webmentions_enabled env)
      then RunResult.exited 1
      else if (failureStrategyOf env == "fail") &&
          (selectUrls env args).any (crosspostFailsOn w env args.message args.dry_run
            (social_networks_enabled w env args.message))
      then RunResult.exited 1 else RunResult.ok := by
  simp only [main, mainWithUrls]
  by_cases h :
      (!(social_networks_enabled w env args.message) && !(webmentions_enabled env)) = true
  · simp [h]
  · have h' :
        (!(social_networks_enabled w env args.message) && !(webmentions_enabled env)) = false := by
      cases hv : (!(social_networks_enabled w env args.message) && !(webmentions_enabled env))
      · rfl
      · exact absurd hv h
    simp only [h', Bool.false_eq_true, if_false]
    rw [processUrls_fst _ _ _ _ _ _ _ _ _ _ hpost]

end PostUrls

namespace PostUrls

/- ### Concrete fixtures for closed theorems -/

/-- A source page with no special structure. -/
def demoPageSource : PostPage :=
  { relTags := [], metaDescription := none, articleTags := [], econtent := none }

/-- A target page advertising a relative webmention endpoint. -/
def demoPageTarget : PostPage :=
  { relTags := [{ rels := ["webmention"], href := some "/wm" }],
    metaDescription := none, articleTags := [], econtent := none }

/-- A page with two article tags. -/
def demoPageTags : PostPage :=
  { relTags := [], metaDescription := none, articleTags := ["Go", "go!"], econtent := none }

/-- A concrete world: three known pages, webmention POSTs complete
with status 200, the posting backend succeeds iff `ok`, and a simple
absolute/relative urljoin. -/
def demoWorld (ok : Bool) : World :=
  { fetch := fun u =>
      if u == "https://u.example" then some demoPageTags
      else if u == "https://s.example/p" then some demoPageSource
      else if u == "https://t.example" then some demoPageTarget
      else none,
    postStatus := fun _ _ _ => some 200,
    runOk := fun _ => ok,
    urljoin := fun base h => if startsWithB h "http" then h else base ++ h }

/-- Like `demoWorld`, but every webmention POST raises a transport
exception (`requests.post` failing with a connection error/timeout). -/
def demoWorldRaise : World :=
  { fetch := fun u =>
      if u == "https://u.example" then some demoPageTags
      else if u == "https://s.example/p" then some demoPageSource
      else if u == "https://t.example" then some demoPageTarget
      else none,
    postStatus := fun _ _ _ => none,
    runOk := fun _ => true,
    urljoin := fun base h => if startsWithB h "http" then h else base ++ h }

/-- In `demoWorld` no webmention POST ever raises. -/
theorem demoWorld_no_raise (ok : Bool) :
    ∀ a b c, (demoWorld ok).postStatus a b c ≠ none :=
  fun _ _ _ h => Option.noConfusion h

/-- Arguments dispatching the single source URL. -/
def demoArgs (dry : Bool) : Args :=
  { urls := "https://s.example/p", limit := 10, failure_strategy := "error",
    dry_run := dry, message := "{url}" }

/-- Arguments with three input URLs. -/
def demoArgsMulti : Args :=
  { urls := "https://a.example/1\nhttps://b.example/2\nhttps://c.example/3",
    limit := 7, failure_strategy := "ignore", dry_run := true, message := "{url}" }

/-- The environment with only Dev.to credentials and a failure strategy. -/
def envDevto (fs : String) : Env :=
  { emptyEnv with DEVTO_API_KEY := "k", FAILURE_STRATEGY := some fs }

/-- The environment with only a static webmention target host. -/
def envWm : Env := { emptyEnv with WEBMENTION_TARGET_HOSTS := "https://t.example" }

/- ### C3: the no-channel guard -/

/-- C3 (code bug): with zero credentials and zero webmention
configuration the guard should abort before processing any URL, but the
probe compares against length 2 while the probe command always has at
least 3 elements (`npx`, `crosspost`, message) — so
`social_networks_enabled` is true even with no channel flag, the run
proceeds to invoke the backend for each URL, and exits 0. -/
theorem no_channel_guard_never_fires :
    channelFlags emptyEnv = [] ∧
    webmentions_enabled emptyEnv = false ∧
    social_networks_enabled (demoWorld true) emptyEnv "{url}" = true ∧
    (main (demoWorld true) emptyEnv (demoArgs false)).1 = RunResult.ok ∧
    Effect.runCmd ["npx", "crosspost", "https://s.example/p"] ∈
      (main (demoWorld true) emptyEnv (demoArgs false)).2 := by decide

/- ### C1: failure strategies and exit codes -/

/-- Counterexample to C1: under the `error` strategy with one active
channel, the backend invocation fails, yet the run completes with
result `ok` (exit code 0) instead of aborting non-zero. -/
theorem error_strategy_counterexample :
    failureStrategyOf (envDevto "error") = "error" ∧
    (demoWorld false).runOk ["npx", "crosspost", "--devto", "https://s.example/p"] = false ∧
    Effect.runCmd ["npx", "crosspost", "--devto", "https://s.example/p"] ∈
      (main (demoWorld false) (envDevto "error") (demoArgs false)).2 ∧
    (main (demoWorld false) (envDevto "error") (demoArgs false)).1 = RunResult.ok := by decide

/-- C1 amended: only the `fail` strategy aborts.  Under any other
strategy (including `error` and the default `ignore`) a configured run
always completes with exit 0, delivery failures included; under `fail`,
the run exits 1 exactly when some dispatched URL's crosspost delivery
is attempted and fails.  The hypothesis `hpost` restricts to runs in
which no webmention POST raises a transport exception: such an
exception escapes the explicit-endpoint branch of
`notify_webmention_hosts` and ends the run regardless of the strategy —
a separate defect of the webmention path, not of the failure-strategy
logic. -/
theorem failure_strategy_semantics (w : World) (env : Env) (args : Args)
    (hpost : ∀ a b c, w.postStatus a b c ≠ none) :
    ((failureStrategyOf env == "fail") = false →
      (social_networks_enabled w env args.message = true ∨ webmentions_enabled env = true) →
      (main w env args).1 = RunResult.ok)
    ∧ ((failureStrategyOf env == "fail") = true →
      (social_networks_enabled w env args.message = true ∨ webmentions_enabled env = true) →
      ((main w env args).1 = RunResult.exited 1 ↔
        (selectUrls env args).any (crosspostFailsOn w env args.message args.dry_run
          (social_networks_enabled w env args.message)) = true)) := by
  have hm := main_fst w env args hpost
  constructor
  · intro hfs hcfg
    rw [hm]
    have hcfg' : (!(social_networks_enabled w env args.message) &&
        !(webmentions_enabled env)) = false := by
      rcases hcfg with h | h <;> simp [h]
    simp [hcfg', hfs]
  · intro hfs hcfg
    have hcfg' : (!(social_networks_enabled w env args.message) &&
        !(webmentions_enabled env)) = false := by
      rcases hcfg with h | h <;> simp [h]
    rw [hm]
    simp only [hcfg', Bool.false_eq_true, if_false, hfs, Bool.true_and]
    cases hany : (selectUrls env args).any (crosspostFailsOn w env args.message
        args.dry_run (social_networks_enabled w env args.message)) <;> simp [hany]

/-- Witness for the amended C1: a failing delivery under `ignore` still
exits 0. -/
theorem failure_strategy_semantics_witness :
    (main (demoWorld false) (envDevto "ignore") (demoArgs false)).1 = RunResult.ok :=
  (failure_strategy_semantics (demoWorld false) (envDevto "ignore") (demoArgs false)
    (demoWorld_no_raise false)).1 (by decide) (Or.inl (by decide))

/- ### C10: CLI arguments vs environment variables -/

/-- Counterexample to C10: the environment value `FAIL` is not the
literal `fail`, yet (being lowercased before the comparison) it aborts
the run on a crosspost failure. -/
theorem limit_strategy_env_counterexample :
    (envDevto "FAIL").FAILURE_STRATEGY = some "FAIL" ∧
    some "FAIL" ≠ some "fail" ∧
    (main (demoWorld false) (envDevto "FAIL") (demoArgs false)).1 = RunResult.exited 1 := by
  decide

/-- C10 amended: `--limit` and `--failure-strategy` never influence the
run; `LIMIT` unset or `0` dispatches every input URL, a positive `LIMIT`
n dispatches the first n in input order, and a crosspost failure aborts
exactly under a `FAILURE_STRATEGY` value equal to `fail` after
lowercasing; any other value completes with exit 0, in runs whose
webmention POSTs raise no transport exception (an uncaught exception
there is a separate defect of the webmention path). -/
theorem cli_args_unused_env_semantics (w : World) (env : Env) :
    (∀ u l1 l2 s1 s2 d m,
      main w env { urls := u, limit := l1, failure_strategy := s1,
                   dry_run := d, message := m } =
      main w env { urls := u, limit := l2, failure_strategy := s2,
                   dry_run := d, message := m })
    ∧ (∀ args : Args, env.LIMIT = none ∨ env.LIMIT = some 0 →
        main w env args = mainWithUrls w env args (splitlines args.urls))
    ∧ (∀ (args : Args) (n : Int), env.LIMIT = some n → 0 < n →
        main w env args = mainWithUrls w env args ((splitlines args.urls).take n.toNat))
    ∧ (∀ args : Args, (∀ a b c, w.postStatus a b c ≠ none) →
        (lowerStr (env.FAILURE_STRATEGY.getD "ignore") == "fail") = false →
        (social_networks_enabled w env args.message = true ∨
          webmentions_enabled env = true) →
        (main w env args).1 = RunResult.ok) := by
  refine ⟨?_, ?_, ?_, ?_⟩
  · intro u l1 l2 s1 s2 d m
    rfl
  · intro args h
    have hl : limitOf env = none := by
      rcases h with h | h <;> simp [limitOf, h]
    simp [main, selectUrls, hl]
  · intro args n hL hn
    have hne : ¬(n = 0) := by omega
    have hl : limitOf env = some n := by
      simp [limitOf, hL, hne]
    have hs : pySliceTo n (splitlines args.urls) =
        (splitlines args.urls).take n.toNat := by
      simp [pySliceTo, le_of_lt hn]
    simp only [main, selectUrls, hl]
    rw [hs]
  · intro args hpost hfs hcfg
    have hm := main_fst w env args hpost
    rw [hm]
    have hcfg' : (!(social_networks_enabled w env args.message) &&
        !(webmentions_enabled env)) = false := by
      rcases hcfg with h | h <;> simp [h]
    have hfs' : (failureStrategyOf env == "fail") = false := hfs
    simp [hcfg', hfs']

/-- Witness for the amended C10: `LIMIT = 2` dispatches exactly the
first two of three input URLs. -/
theorem cli_args_unused_env_semantics_witness :
    main (demoWorld true) { emptyEnv with LIMIT := some 2, DEVTO_API_KEY := "k" }
      demoArgsMulti =
    mainWithUrls (demoWorld true) { emptyEnv with LIMIT := some 2, DEVTO_API_KEY := "k" }
      demoArgsMulti ((splitlines demoArgsMulti.urls).take 2) :=
  (cli_args_unused_env_semantics (demoWorld true)
    { emptyEnv with LIMIT := some 2, DEVTO_API_KEY := "k" }).2.2.1
    demoArgsMulti 2 rfl (by decide)

end PostUrls

namespace PostUrls

/- ### C6: webmention delivery and the uncaught transport exception -/

/-- The environment with a static webmention target host and an
explicit endpoint override. -/
def envWmEp : Env :=
  { emptyEnv with WEBMENTION_TARGET_HOSTS := "https://t.example",
                  WEBMENTION_ENDPOINT := "https://bridgy.example/wm" }

/-- C6 (code bug): the claim — a webmention delivery failure never
aborts the run — matches the spec and the "shoot and forget" docstring
of `notify_webmention_hosts`, but the explicit-endpoint branch of that
loop calls `post_webmention_to_endpoint` outside its `try` block, so a
transport exception raised by `requests.post` there propagates uncaught
and ends the run with a non-zero exit, skipping every remaining target
and URL.  First conjunct: with a static target plus an explicit
endpoint configured, a raising POST aborts the run.  Second conjunct:
the identical transport failure on the discovery branch (no explicit
endpoint) is caught inside `send_webmention`, only logged, and the run
completes with exit 0 — localizing the defect to the uncovered call. -/
theorem webmention_transport_failure_aborts :
    (main demoWorldRaise envWmEp (demoArgs false)).1 = RunResult.exited 1 ∧
    (main demoWorldRaise envWm (demoArgs false)).1 = RunResult.ok := by decide

/- ### C8: hashtag formatting -/

/-- Modelled from the claim's words, not from the source: the hashtag
formatting with tags additionally case-normalized (lowercased) before
stripping, for comparison with the code's `hashtagsOf`. -/
def hashtagsCaseNormalized (tags : List String) : String :=
  joinSep " " (sortStrings
    ((((tags.map (fun t => stripNonAlnum (lowerStr t))).dedup.filter
      (fun t => !(t == ""))).map (fun t => "#" ++ t)).dedup))

/-- Counterexample to C8: for fetched tags `Go` and `go!` the code
formats `#Go #go` — the original case is preserved — while
case-normalized formatting would collapse both to `#go`; the two
disagree, so the tags are not case-normalized. -/
theorem tags_not_case_normalized :
    (build_crosspost_cmd (demoWorld true) emptyEnv "{url} {tags}" "https://u.example").1 =
      ["npx", "crosspost", "https://u.example #Go #go"] ∧
    hashtagsCaseNormalized ["Go", "go!"] = "#go" ∧
    ("#Go #go" : String) ≠ "#go" := by decide

/-- C8 amended: tags are stripped of non-alphanumeric characters with
their case preserved, prefixed with `#`, deduplicated after
normalization, and substituted sorted and space-joined; fetched tags
`Go`/`go!` format as `#Go #go`, and tags that agree after normalization
(`go!`, `go`) collapse to one hashtag. -/
theorem tags_normalization_scenario :
    (build_crosspost_cmd (demoWorld true) emptyEnv "{url} {tags}" "https://u.example").1 =
      ["npx", "crosspost", "https://u.example #Go #go"] ∧
    hashtagsOf ["Go", "go!", "go"] = "#Go #go" := by decide

/- ### C9: endpoint discovery -/

/-- The discovery criterion on one rel-bearing element: some relation
token equals `webmention` case-insensitively, and the element carries a
non-empty `href` (an element without a usable href is passed over). -/
def matchesWm (t : RelTag) : Bool :=
  t.rels.any (fun r => lowerStr r == "webmention") &&
    (match t.href with
     | some h => !(h == "")
     | none => false)

theorem findEndpoint_cons_pos {t : RelTag} {rest : List RelTag}
    (h : matchesWm t = true) : findEndpoint (t :: rest) = t.href := by
  rcases Bool.and_eq_true .. |>.mp h with ⟨hrels, hhref⟩
  cases ht : t.href with
  | none => rw [ht] at hhref; exact Bool.noConfusion hhref
  | some h0 =>
      rw [ht] at hhref
      dsimp only at hhref
      have h0ne : (h0 == "") = false := by
        cases hv : (h0 == "")
        · rfl
        · rw [hv] at hhref; exact Bool.noConfusion hhref
      simp [findEndpoint, hrels, ht, h0ne]

theorem findEndpoint_cons_neg {t : RelTag} {rest : List RelTag}
    (h : matchesWm t = false) : findEndpoint (t :: rest) = findEndpoint rest := by
  unfold matchesWm at h
  by_cases hA : t.rels.any (fun r => lowerStr r == "webmention") = true
  · rw [hA] at h
    simp only [Bool.true_and] at h
    cases ht : t.href with
    | none => simp [findEndpoint, hA, ht]
    | some h0 =>
        rw [ht] at h
        dsimp only at h
        have : (h0 == "") = true := by
          cases hv : (h0 == "")
          · rw [hv] at h; exact Bool.noConfusion h
          · rfl
        simp [findEndpoint, hA, ht, this]
  · have hA' : t.rels.any (fun r => lowerStr r == "webmention") = false := by
      cases hv : t.rels.any (fun r => lowerStr r == "webmention")
      · rfl
      · exact absurd hv hA
    simp [findEndpoint, hA']

theorem findEndpoint_eq_some_iff (tags : List RelTag) (h : String) :
    findEndpoint tags = some h ↔ ∃ pre t rest, tags = pre ++ t :: rest ∧
      matchesWm t = true ∧ t.href = some h ∧ ∀ t' ∈ pre, matchesWm t' = false := by
  induction tags with
  | nil =>
      constructor
      · intro hc
        exact absurd hc (by simp [findEndpoint])
      · rintro ⟨pre, t, rest, heq, -⟩
        exact absurd heq (by simp)
  | cons t0 rest0 ih =>
      by_cases h0 : matchesWm t0 = true
      · rw [findEndpoint_cons_pos h0]
        constructor
        · intro hh
          exact ⟨[], t0, rest0, rfl, h0, hh, fun t' ht' => absurd ht' (List.not_mem_nil t')⟩
        · rintro ⟨pre, t, rest, heq, hm, hh, hpre⟩
          cases pre with
          | nil =>
              simp only [List.nil_append, List.cons.injEq] at heq
              rw [heq.1]
              exact hh
          | cons p ps =>
              simp only [List.cons_append, List.cons.injEq] at heq
              have hp : matchesWm p = false := hpre p (List.mem_cons_self p ps)
              rw [← heq.1] at hp
              rw [h0] at hp
              exact Bool.noConfusion hp
      · have h0' : matchesWm t0 = false := by
          cases hv : matchesWm t0
          · rfl
          · exact absurd hv h0
        rw [findEndpoint_cons_neg h0', ih]
        constructor
        · rintro ⟨pre, t, rest, heq, hm, hh, hpre⟩
          refine ⟨t0 :: pre, t, rest, by rw [heq]; rfl, hm, hh, ?_⟩
          intro t' ht'
          rcases List.mem_cons.mp ht' with rfl | ht'
          · exact h0'
          · exact hpre t' ht'
        · rintro ⟨pre, t, rest, heq, hm, hh, hpre⟩
          cases pre with
          | nil =>
              simp only [List.nil_append, List.cons.injEq] at heq
              rw [← heq.1] at hm
              rw [h0'] at hm
              exact Bool.noConfusion hm
          | cons p ps =>
              simp only [List.cons_append, List.cons.injEq] at heq
              refine ⟨ps, t, rest, heq.2, hm, hh, ?_⟩
              intro t' ht'
              exact hpre t' (List.mem_cons_of_mem p ht')

theorem post_webmention_to_endpoint_snd (w : World) (source endpoint target : String) :
    (post_webmention_to_endpoint w source endpoint target).2 =
      [Effect.post endpoint source target] := by
  unfold post_webmention_to_endpoint
  cases w.postStatus endpoint source target <;> rfl

/-- C9: discovery returns the href of the first element (document
order) whose relation tokens contain `webmention` case-insensitively
and whose href is present; the POST then targets that href resolved
against the target's base (its completed result is reported, and a
raised transport exception is caught by `send_webmention`'s `try`,
`Option.getD` supplying the `except` value); when no element matches,
the result is absent, no POST is issued for that target, and the
outcome is the non-fatal `(False, "No webmention endpoint found …")`
report. -/
theorem endpoint_discovery_behavior :
    (∀ (tags : List RelTag) (h : String), findEndpoint tags = some h ↔
      ∃ pre t rest, tags = pre ++ t :: rest ∧ matchesWm t = true ∧ t.href = some h ∧
        ∀ t' ∈ pre, matchesWm t' = false)
    ∧ (∀ (w : World) (source target : String) (page : PostPage) (h : String),
        w.fetch target = some page → findEndpoint page.relTags = some h →
        send_webmention w source target =
          ((post_webmention_to_endpoint w source (w.urljoin target h) target).1.getD
             (false, "Webmention error for " ++ target),
           [Effect.fetch target, Effect.post (w.urljoin target h) source target]))
    ∧ (∀ (w : World) (source target : String) (page : PostPage),
        w.fetch target = some page → findEndpoint page.relTags = none →
        send_webmention w source target =
          ((false, "No webmention endpoint found for " ++ target),
           [Effect.fetch target])) := by
  refine ⟨findEndpoint_eq_some_iff, ?_, ?_⟩
  · intro w source target page h hf hfind
    simp [send_webmention, hf, hfind, post_webmention_to_endpoint_snd]
  · intro w source target page hf hfind
    simp [send_webmention, hf, hfind]

/-- Witness for C9 at the demo target (relative endpoint `/wm` resolved
against the target's base, POST completing with 200). -/
theorem endpoint_discovery_behavior_witness :
    send_webmention (demoWorld true) "https://s.example/p" "https://t.example" =
      ((true, "Webmention sent via https://t.example/wm"),
       [Effect.fetch "https://t.example",
        Effect.post "https://t.example/wm" "https://s.example/p" "https://t.example"]) :=
  (endpoint_discovery_behavior.2.1 (demoWorld true) "https://s.example/p"
    "https://t.example" demoPageTarget "/wm" (by decide) (by decide)).trans (by decide)

end PostUrls

namespace PostUrls

/- ### C7: dry-run machinery -/

/-- An effect that mutates the outside world: a webmention POST or an
invocation of the posting backend.  Fetches and log lines are
read-only. -/
def isMutation : Effect → Bool
  | Effect.post _ _ _ => true
  | Effect.runCmd _ => true
  | _ => false

/-- A trace with no mutating effect. -/
def MutFree (tr : List Effect) : Prop := ∀ e ∈ tr, isMutation e = false

theorem mutFree_nil : MutFree [] := by
  intro e he
  exact absurd he (List.not_mem_nil e)

theorem mutFree_of_all (tr : List Effect) (h : tr.all (fun e => !(isMutation e)) = true) :
    MutFree tr := by
  intro e he
  have := (List.all_eq_true.mp h) e he
  simpa using this

theorem mutFree_cons {e : Effect} {tr : List Effect} (h1 : isMutation e = false)
    (h2 : MutFree tr) : MutFree (e :: tr) := by
  intro x hx
  rcases List.mem_cons.mp hx with rfl | hx
  · exact h1
  · exact h2 x hx

theorem mutFree_append {t1 t2 : List Effect} (h1 : MutFree t1) (h2 : MutFree t2) :
    MutFree (t1 ++ t2) := by
  intro x hx
  rcases List.mem_append.mp hx with hx | hx
  · exact h1 x hx
  · exact h2 x hx

theorem mutFree_concatMap {f : α → List Effect} {l : List α}
    (h : ∀ x ∈ l, MutFree (f x)) : MutFree (concatMap f l) := by
  induction l with
  | nil => exact mutFree_nil
  | cons x xs ih =>
      exact mutFree_append (h x (List.mem_cons_self x xs))
        (ih (fun y hy => h y (List.mem_cons_of_mem x hy)))

theorem extract_description_mutFree (w : World) (url : String) :
    MutFree (extract_description w url).2 := by
  unfold extract_description
  cases hf : w.fetch url
  · exact mutFree_cons rfl (mutFree_cons rfl mutFree_nil)
  · exact mutFree_cons rfl mutFree_nil

theorem extract_og_tags_mutFree (w : World) (url : String) :
    MutFree (extract_og_tags w url).2 := by
  unfold extract_og_tags
  cases hf : w.fetch url
  · exact mutFree_cons rfl (mutFree_cons rfl mutFree_nil)
  · exact mutFree_cons rfl mutFree_nil

theorem build_mutFree (w : World) (env : Env) (m url : String) :
    MutFree (build_crosspost_cmd w env m url).2 := by
  unfold build_crosspost_cmd
  dsimp only
  by_cases hd : message_needs_description m = true <;>
    by_cases ht : message_needs_tags m = true <;>
      simp only [hd, ht, if_true, if_false]
  · exact mutFree_append (extract_description_mutFree w url) (extract_og_tags_mutFree w url)
  · exact mutFree_append (extract_description_mutFree w url) mutFree_nil
  · exact mutFree_append mutFree_nil (extract_og_tags_mutFree w url)
  · exact mutFree_append mutFree_nil mutFree_nil

theorem notifyOne_dry (w : World) (s ep t : String) :
    (notifyOne w s ep true t).1 = none ∧ MutFree (notifyOne w s ep true t).2 :=
  ⟨rfl, mutFree_of_all _ rfl⟩

theorem notify_hosts_dry (w : World) (s ep : String) :
    ∀ targets, (notify_webmention_hosts w s ep true targets).1 = none ∧
      MutFree (notify_webmention_hosts w s ep true targets).2 := by
  intro targets
  induction targets with
  | nil => exact ⟨rfl, mutFree_nil⟩
  | cons t rest ih =>
      have h1 := notifyOne_dry w s ep t
      rcases hp : notifyOne w s ep true t with ⟨pf, ptr⟩
      rw [hp] at h1
      obtain ⟨h1a, h1b⟩ := h1
      simp only at h1a h1b
      subst h1a
      simp only [notify_webmention_hosts]
      rw [hp]
      dsimp only
      exact ⟨ih.1, mutFree_append h1b ih.2⟩

theorem scan_dry_mutFree (w : World) (s : String) :
    MutFree (send_webmentions_to_external_links w s true) := by
  cases hf : w.fetch s with
  | none =>
      simp only [send_webmentions_to_external_links, hf]
      exact mutFree_of_all _ rfl
  | some page =>
      cases he : page.econtent with
      | none =>
          simp only [send_webmentions_to_external_links, hf, he]
          exact mutFree_of_all _ rfl
      | some hrefs =>
          simp only [send_webmentions_to_external_links, hf, he]
          by_cases hl : (externalLinks s hrefs).isEmpty = true
          · simp only [hl, if_true]
            exact mutFree_of_all _ rfl
          · simp only [hl, Bool.false_eq_true, if_false]
            exact mutFree_cons rfl (mutFree_concatMap
              (fun t _ => mutFree_of_all _ rfl))

theorem scanPart_dry_mutFree (w : World) (scan : Bool) (url : String) :
    MutFree (if scan then send_webmentions_to_external_links w url true else []) := by
  cases scan with
  | false => exact mutFree_nil
  | true => exact scan_dry_mutFree w url

theorem webmentionStep_dry (w : World) (webm : Bool) (hosts : List String)
    (ep : String) (scan : Bool) (url : String) :
    (webmentionStep w true webm hosts ep scan url).1 = none ∧
      MutFree (webmentionStep w true webm hosts ep scan url).2 := by
  unfold webmentionStep
  cases webm with
  | false => exact ⟨rfl, mutFree_nil⟩
  | true =>
      dsimp only
      by_cases hh : (!hosts.isEmpty) = true
      · simp only [hh, if_true]
        have h1 := notify_hosts_dry w url ep hosts
        rcases hp : notify_webmention_hosts w url ep true hosts with ⟨pf, ptr⟩
        rw [hp] at h1
        obtain ⟨h1a, h1b⟩ := h1
        simp only at h1a h1b
        subst h1a
        refine ⟨rfl, ?_⟩
        exact mutFree_append h1b (scanPart_dry_mutFree w scan url)
      · have hh' : (!hosts.isEmpty) = false := by
          cases hv : (!hosts.isEmpty)
          · rfl
          · exact absurd hv hh
        simp only [hh', Bool.false_eq_true, if_false]
        exact ⟨rfl, mutFree_append mutFree_nil (scanPart_dry_mutFree w scan url)⟩

theorem crosspostStep_dry (w : World) (env : Env) (m fs : String) (social : Bool)
    (url : String) :
    (crosspostStep w env m true fs social url).1 = none ∧
    MutFree (crosspostStep w env m true fs social url).2 := by
  unfold crosspostStep
  cases social with
  | false => exact ⟨rfl, mutFree_nil⟩
  | true =>
      constructor
      · rfl
      · exact mutFree_append (build_mutFree w env m url) (mutFree_of_all _ rfl)

theorem processUrls_dry_mutFree (w : World) (env : Env) (m fs : String)
    (social webm : Bool) (hosts : List String) (ep : String) (scan : Bool) :
    ∀ urls, MutFree (processUrls w env m true fs social webm hosts ep scan urls).2 := by
  intro urls
  induction urls with
  | nil => exact mutFree_nil
  | cons url rest ih =>
      have hstep := crosspostStep_dry w env m fs social url
      rcases hcp : crosspostStep w env m true fs social url with ⟨cf, ctr⟩
      rw [hcp] at hstep
      obtain ⟨h1, h2⟩ := hstep
      simp only at h1 h2
      subst h1
      have hwd := webmentionStep_dry w webm hosts ep scan url
      rcases hwp : webmentionStep w true webm hosts ep scan url with ⟨wf, wtr⟩
      rw [hwp] at hwd
      obtain ⟨hw1, hw2⟩ := hwd
      simp only at hw1 hw2
      subst hw1
      simp only [processUrls]
      rw [hcp, hwp]
      dsimp only
      exact mutFree_append (mutFree_append h2 hw2) ih

theorem main_dry_mutFree (w : World) (env : Env) (args : Args)
    (hdry : args.dry_run = true) : MutFree (main w env args).2 := by
  unfold main mainWithUrls
  dsimp only
  by_cases hcfg :
      (!(social_networks_enabled w env args.message) && !(webmentions_enabled env)) = true
  · simp only [hcfg, if_true]
    exact mutFree_append (build_mutFree w env args.message "https://example.com")
      (mutFree_cons rfl mutFree_nil)
  · have hcfg' :
        (!(social_networks_enabled w env args.message) && !(webmentions_enabled env)) = false := by
      cases hv : (!(social_networks_enabled w env args.message) && !(webmentions_enabled env))
      · rfl
      · exact absurd hv hcfg
    simp only [hcfg', Bool.false_eq_true, if_false]
    rw [hdry]
    exact mutFree_append (build_mutFree w env args.message "https://example.com")
      (processUrls_dry_mutFree w env args.message (failureStrategyOf env)
        (social_networks_enabled w env args.message) (webmentions_enabled env)
        (parseHosts env.WEBMENTION_TARGET_HOSTS) (stripStr env.WEBMENTION_ENDPOINT)
        (lowerStr env.WEBMENTION_SCAN_CONTENT == "true") (selectUrls env args))

end PostUrls

namespace PostUrls

theorem build_fetch_mem (w : World) (env : Env) (m url : String)
    (h : message_needs_tags m = true) :
    Effect.fetch url ∈ (build_crosspost_cmd w env m url).2 := by
  unfold build_crosspost_cmd
  dsimp only
  simp only [h, if_true]
  refine List.mem_append_right _ ?_
  cases hf : w.fetch url <;> simp [extract_og_tags, hf]

theorem crosspostStep_dry_fetch_mem (w : World) (env : Env) (m fs url : String)
    (h : message_needs_tags m = true) :
    Effect.fetch url ∈ (crosspostStep w env m true fs true url).2 := by
  simp only [crosspostStep, if_true]
  exact List.mem_append_left _ (build_fetch_mem w env m url h)

theorem processUrls_dry_fetch_mem (w : World) (env : Env) (m fs : String)
    (webm : Bool) (hosts : List String) (ep : String) (scan : Bool)
    (h : message_needs_tags m = true) :
    ∀ urls url, url ∈ urls →
      Effect.fetch url ∈ (processUrls w env m true fs true webm hosts ep scan urls).2 := by
  intro urls
  induction urls with
  | nil =>
      intro url hu
      exact absurd hu (List.not_mem_nil url)
  | cons u0 rest ih =>
      intro url hu
      have hstep := crosspostStep_dry w env m fs true u0
      rcases hcp : crosspostStep w env m true fs true u0 with ⟨cf, ctr⟩
      rw [hcp] at hstep
      obtain ⟨h1, -⟩ := hstep
      simp only at h1
      subst h1
      have hwd := webmentionStep_dry w webm hosts ep scan u0
      rcases hwp : webmentionStep w true webm hosts ep scan u0 with ⟨wf, wtr⟩
      rw [hwp] at hwd
      obtain ⟨hw1, -⟩ := hwd
      simp only at hw1
      subst hw1
      simp only [processUrls]
      rw [hcp, hwp]
      dsimp only
      rcases List.mem_cons.mp hu with rfl | hu
      · have hmem := crosspostStep_dry_fetch_mem w env m fs url h
        rw [hcp] at hmem
        simp only at hmem
        exact List.mem_append_left _ (List.mem_append_left _ hmem)
      · exact List.mem_append_right _ (ih url hu)

/-- Counterexample to C7: with a static webmention target configured,
the wet run performs the read-only endpoint-discovery fetch of the
target, but the dry run — identical except for the flag — never fetches
the target at all: discovery fetches do not still occur in dry-run
mode. -/
theorem dry_run_skips_discovery_fetch :
    (Effect.fetch "https://t.example" ∈
      (main (demoWorld true) envWm (demoArgs false)).2)
    ∧ (Effect.fetch "https://t.example" ∉
      (main (demoWorld true) envWm (demoArgs true)).2) := by decide

/-- C7 amended: in dry-run mode every delivery action is replaced by a
logged simulation — the trace contains no webmention POST and no
backend invocation — while the read-only metadata fetches still occur:
when the template references the tags placeholder and crossposting is
active, every dispatched URL is still fetched.  (Webmention
endpoint-discovery fetches, by contrast, are skipped in dry-run.) -/
theorem dry_run_no_mutation_metadata (w : World) (env : Env) (args : Args)
    (hdry : args.dry_run = true) :
    (∀ e ∈ (main w env args).2, isMutation e = false)
    ∧ (message_needs_tags args.message = true →
       social_networks_enabled w env args.message = true →
       ∀ url ∈ selectUrls env args, Effect.fetch url ∈ (main w env args).2) := by
  constructor
  · exact main_dry_mutFree w env args hdry
  · intro htags hsocial url hu
    unfold main mainWithUrls
    dsimp only
    have hcfg : (!(social_networks_enabled w env args.message) &&
        !(webmentions_enabled env)) = false := by
      simp [hsocial]
    simp only [hcfg, Bool.false_eq_true, if_false]
    rw [hdry, hsocial]
    exact List.mem_append_right _
      (processUrls_dry_fetch_mem w env args.message (failureStrategyOf env)
        (webmentions_enabled env) (parseHosts env.WEBMENTION_TARGET_HOSTS)
        (stripStr env.WEBMENTION_ENDPOINT)
        (lowerStr env.WEBMENTION_SCAN_CONTENT == "true") htags
        (selectUrls env args) url hu)

/-- Witness for the amended C7: a dry run with a tags template issues
the metadata fetch of the dispatched URL and no mutating effect. -/
theorem dry_run_no_mutation_metadata_witness :
    Effect.fetch "https://u.example" ∈
      (main (demoWorld true) (envDevto "ignore")
        { urls := "https://u.example", limit := 0, failure_strategy := "ignore",
          dry_run := true, message := "{url} {tags}" }).2 :=
  (dry_run_no_mutation_metadata (demoWorld true) (envDevto "ignore")
    { urls := "https://u.example", limit := 0, failure_strategy := "ignore",
      dry_run := true, message := "{url} {tags}" } rfl).2 (by decide) (by decide)
    "https://u.example" (by decide)

end PostUrls
